import Mathlib

/-!
The task-to-container execution pipeline of catalogexe.

A shallow embedding of `util/util.go` (`RunDocker`, `createAndPull`, `findInFile`,
`findFile`, `FindLabelValue`) and of `executor.go` (`LaunchTask`).

Conventions of the embedding.

* A Go `string` is a Lean `String`. The only string constants the code compares with or slices
  by (`"file://"`, `"RW"`, `"processor"`, ...) are ASCII, so splitting after the seven bytes of
  a matched `"file://"` is splitting after its seven characters.
* A Go `int64` is an `Int`; arithmetic that can overflow is wrapped by `wrapInt64`.
* A Go `error` is a `GoError`: the dynamic type of the value and the text of `Error()`.
  `nil` is `none`.
* A Go function that can panic returns `Except Panic _`.
* Everything outside the repository that the code calls (`json.Unmarshal`, the Docker client)
  is a field of `World`. The calls made to the Docker client are recorded in order.
* Output written with `fmt.Println` is not modelled.
-/

set_option maxRecDepth 100000

namespace Catalogexe

/-! ## Go values -/

/-- A Go `error` value: its dynamic type and the text returned by `Error()`. -/
structure GoError where
  dynType : String
  text : String
deriving DecidableEq, Repr

/-- The value built by `errors.New` of the standard library (package `errors` in `util.go`). -/
def errorsNew (text : String) : GoError := ⟨"*errors.errorString", text⟩

/-- The dynamic type `*errors.Error` of `github.com/go-errors/errors`, the package that
`executor.go` imports under the name `errors`. -/
def goErrorsType : String := "*github.com/go-errors/errors.Error"

/-- The ways the modelled code can panic. -/
inductive Panic where
  | nilDereference
  | sliceBounds
  | typeAssertion
  | value (e : GoError)
deriving DecidableEq, Repr

deriving instance DecidableEq for Except

/-- Two's-complement wrap-around of 64-bit signed arithmetic. -/
def wrapInt64 (x : Int) : Int := (x + 2 ^ 63) % 2 ^ 64 - 2 ^ 63

/-- The function `strings.HasPrefix(s, pre)`:
`len(s) >= len(pre) && s[:len(pre)] == pre`. -/
def HasPrefix (s pre : String) : Bool :=
  decide (pre.length ≤ s.length) && decide (s.data.take pre.length = pre.data)

/-- The slice expression `s[i:]`, which panics when `i > len(s)`. -/
def sliceFrom (s : String) (i : Nat) : Except Panic String :=
  if i ≤ s.length then .ok ⟨s.data.drop i⟩ else .error .sliceBounds

/-! ## Data model of `util.go` -/

structure Volume where
  HostPath : String
  ContainerPath : String
  Mode : String
deriving DecidableEq, Repr

/-- The struct `Processor`. The field `Cpu float32` is never read by the code and is left out. -/
structure Processor where
  Name : String := ""
  Docker : String := ""
  Mem : Int := 0
  Input : String := ""
  Output : String := ""
  Error : String := ""
  Volumes : List Volume := []
  Env : List String := []
deriving DecidableEq, Repr

structure Metadata where
  Filename : String := ""
  Datatype : String := ""
  Size : Int := 0
  Hash : String := ""
deriving DecidableEq, Repr

/-- The struct `Location`; `Type_` is the Go field `Type`. -/
structure Location where
  Url : String := ""
  Type_ : String := ""
  Compressed : Bool := false
  Processing : String := ""
deriving DecidableEq, Repr

structure Message where
  Metadata : Metadata := {}
  Locations : List Location := []
deriving DecidableEq, Repr

/-! ## Mesos values -/

/-- One `mesos.Label`. -/
structure Label where
  Key : String
  Value : String
deriving DecidableEq, Repr

/-- The part of `mesos.TaskInfo` the code reads. -/
structure TaskInfo where
  Name : String := ""
  TaskId : String := ""
  Labels : List Label := []
deriving DecidableEq, Repr

inductive TaskState where
  | TASK_STARTING
  | TASK_RUNNING
  | TASK_FINISHED
  | TASK_FAILED
  | TASK_ERROR
deriving DecidableEq, Repr

/-- The struct `mesos.TaskStatus`; `Data = none` is the unset field. -/
structure TaskStatus where
  TaskId : String
  State : TaskState
  Data : Option String := none
deriving DecidableEq, Repr

/-! ## Docker client values -/

/-- The struct `docker.Mount`. -/
structure Mount where
  Name : String := ""
  Source : String := ""
  Destination : String := ""
  Driver : String := ""
  Mode : String := ""
  RW : Bool := false
deriving DecidableEq, Repr

/-- The fields of `docker.Config` the code sets. -/
structure Config where
  Image : String := ""
  AttachStdout : Bool := false
  AttachStderr : Bool := false
  Memory : Int := 0
  Env : List String := []
  Mounts : List Mount := []
deriving DecidableEq, Repr

/-- The fields of `docker.HostConfig` the code sets. -/
structure HostConfig where
  Binds : List String := []
deriving DecidableEq, Repr

structure CreateContainerOptions where
  Name : String := ""
  Config : Config := {}
  HostConfig : HostConfig := {}
deriving DecidableEq, Repr

structure Container where
  ID : String
deriving DecidableEq, Repr

/-- One call made to the Docker client. -/
inductive Call where
  | create (opts : CreateContainerOptions)
  | pull (repository : String)
  | start (id : String)
  | attach (id : String)
  | wait (id : String)
deriving DecidableEq, Repr

/-- What lies outside the repository. `CreateContainer n opts` is the answer to the `n`-th
attempt (`0` the first one, `1` the one after a pull); `AttachToContainer id` gives the bytes
written to the output stream and the error returned. -/
structure World where
  unmarshalProcessor : String → Except GoError Processor
  unmarshalMessage : String → Except GoError Message
  CreateContainer : Nat → CreateContainerOptions → Except GoError Container
  PullImage : String → Option GoError
  StartContainer : String → Option GoError
  AttachToContainer : String → String × Option GoError
  WaitContainer : String → Except GoError Int

/-! ## `util.go` -/

/-- The function `FindLabelValue`: the value of the first label whose key is `key`, else `""`. -/
def FindLabelValue (key : String) : List Label → String
  | [] => ""
  | l :: rest => if key = l.Key then l.Value else FindLabelValue key rest

/-- The loop of `findFile` over the locations. -/
def findFileIn (typeOfFile : String) : List Location → Option Location
  | [] => none
  | loc :: rest =>
    if typeOfFile = "" ∨ loc.Type_ = typeOfFile then
      if HasPrefix loc.Url "file://" then some loc else findFileIn typeOfFile rest
    else findFileIn typeOfFile rest

/-- The function `findFile`. -/
def findFile (message : Message) (typeOfFile : String) : Option Location :=
  findFileIn typeOfFile message.Locations

/-- The function `findInFile`. -/
def findInFile (message : Message) : Except Panic String :=
  let f := findFile message "ingest"
  let f := match f with
    | none => findFile message "archive"
    | some l => some l
  let f := match f with
    | none => findFile message "cache"
    | some l => some l
  let f := match f with
    | none => findFile message ""
    | some l => some l
  match f with
  | none => .ok ""
  | some l => sliceFrom l.Url 7

/-- The loop appending the task labels to `cfg.Env`. -/
def appendLabelEnv (env : List String) (labels : List Label) : List String :=
  labels.foldl (fun acc l => acc ++ [l.Key ++ "=" ++ l.Value]) env

/-- The loop appending the processor's `Env` entries to `cfg.Env`. -/
def appendProcessorEnv (env : List String) (requests : List String) : List String :=
  requests.foldl (fun acc envRequest => acc ++ [envRequest]) env

/-- The loop over `p.Volumes`, extending `cfg.Mounts` and `host.Binds`. -/
def appendVolumes (mounts : List Mount) (binds : List String) :
    List Volume → List Mount × List String
  | [] => (mounts, binds)
  | volRequest :: rest =>
    appendVolumes
      (mounts ++ [{ Name := volRequest.ContainerPath, Source := volRequest.HostPath,
                    RW := decide (volRequest.Mode = "RW") }])
      (binds ++ [volRequest.HostPath ++ ":" ++ volRequest.ContainerPath])
      rest

/-- The options `RunDocker` assembles in `opts`, `cfg` and `host` for a decoded processor and
a resolved artifact path. -/
def launchOpts (taskInfo : TaskInfo) (p : Processor) (path : String) : CreateContainerOptions :=
  let env := appendLabelEnv [] taskInfo.Labels
  let env := appendProcessorEnv env p.Env
  let mounts : List Mount := [] ++ [{ Name := "/data/ingest_file", Source := path, RW := false }]
  let binds : List String := [] ++ [path ++ ":/data/ingest_file"]
  let mb := appendVolumes mounts binds p.Volumes
  { Name := taskInfo.TaskId
    Config := { Image := p.Docker, AttachStdout := true, AttachStderr := true,
                Memory := wrapInt64 (p.Mem * 1024000), Env := env, Mounts := mb.1 }
    HostConfig := { Binds := mb.2 } }

/-- The function `createAndPull`: the calls made, and the pair `(container, err)` returned. -/
def createAndPull (w : World) (p : Processor) (opts : CreateContainerOptions) :
    List Call × Option Container × Option GoError :=
  match w.CreateContainer 0 opts with
  | .error err =>
    if err.text = "no such image" then
      match w.PullImage p.Docker with
      | some errPull => ([.create opts, .pull p.Docker], none, some errPull)
      | none =>
        match w.CreateContainer 1 opts with
        | .error err2 => ([.create opts, .pull p.Docker, .create opts], none, some err2)
        | .ok container => ([.create opts, .pull p.Docker, .create opts], some container, none)
    else ([.create opts], none, some err)
  | .ok container => ([.create opts], some container, none)

/-- What a run of `RunDocker` does: the Docker client calls it made, the content of the
buffer `b` when it stopped, and the triple it returned or the panic it raised. -/
structure RunResult where
  calls : List Call
  buffer : String
  out : Except Panic (String × Int × Option GoError)
deriving DecidableEq

/-- The second half of `RunDocker`, from `createAndPull` to the final `return`. -/
def runContainer (w : World) (p : Processor) (opts : CreateContainerOptions) : RunResult :=
  let created := createAndPull w p opts
  -- the error of `createAndPull` is overwritten by the next assignment without being read;
  -- `container.ID` dereferences the returned pointer
  match created.2.1 with
  | none => ⟨created.1, "", .error .nilDereference⟩
  | some container =>
  match w.StartContainer container.ID with
  | some err => ⟨created.1 ++ [.start container.ID], "", .ok ("", -7, some err)⟩
  | none =>
  let b := (w.AttachToContainer container.ID).1
  match w.WaitContainer container.ID with
  | .error err =>
    ⟨created.1 ++ [.start container.ID, .attach container.ID, .wait container.ID], b,
      .error (.value err)⟩
  | .ok code =>
    ⟨created.1 ++ [.start container.ID, .attach container.ID, .wait container.ID], b,
      .ok (container.ID, code, none)⟩

/-- The function `RunDocker`: decoding and artifact lookup, then `launchOpts` and
`runContainer`. -/
def RunDocker (w : World) (taskInfo : TaskInfo) : RunResult :=
  let processorStr := FindLabelValue "processor" taskInfo.Labels
  if processorStr = "" then ⟨[], "", .ok ("", -1, some (errorsNew "Missing Processor"))⟩ else
  match w.unmarshalProcessor processorStr with
  | .error err => ⟨[], "", .ok ("", -2, some err)⟩
  | .ok p =>
  let messageStr := FindLabelValue "message" taskInfo.Labels
  if messageStr = "" then ⟨[], "", .ok ("", -3, some (errorsNew "Missing Message"))⟩ else
  match w.unmarshalMessage messageStr with
  | .error err => ⟨[], "", .ok ("", -4, some err)⟩
  | .ok message =>
  match findInFile message with
  | .error pn => ⟨[], "", .error pn⟩
  | .ok path =>
  if path = "" then ⟨[], "", .ok ("", -5, some (errorsNew "No File to Process!"))⟩ else
  runContainer w p (launchOpts taskInfo p path)

/-! ## `executor.go` -/

/-- What a run of `LaunchTask` (with the goroutine it starts) does: the statuses handed to
`SendStatusUpdate` in order, the Docker client calls, and the panic that ended it, if any. -/
structure LaunchResult where
  sent : List TaskStatus
  calls : List Call
  panicked : Option Panic
deriving DecidableEq, Repr

/-- The method `LaunchTask`, the body of its goroutine run after the two synchronous status
updates. The result of `SendStatusUpdate` is only printed. -/
def LaunchTask (w : World) (taskInfo : TaskInfo) : LaunchResult :=
  let runStatus : TaskStatus := { TaskId := taskInfo.TaskId, State := .TASK_RUNNING }
  let starting : TaskStatus := { TaskId := taskInfo.TaskId, State := .TASK_STARTING }
  let r := RunDocker w taskInfo
  match r.out with
  | .error pn => ⟨[runStatus, starting], r.calls, some pn⟩
  | .ok (message, code, err) =>
    match err with
    | some e =>
      -- err.(*errors.Error).ErrorStack()
      if e.dynType = goErrorsType then
        ⟨[runStatus, starting, { TaskId := taskInfo.TaskId, State := .TASK_FAILED }],
          r.calls, none⟩
      else ⟨[runStatus, starting], r.calls, some .typeAssertion⟩
    | none =>
      if code = 0 then
        ⟨[runStatus, starting,
          { TaskId := taskInfo.TaskId, State := .TASK_FINISHED, Data := some message }],
          r.calls, none⟩
      else
        ⟨[runStatus, starting,
          { TaskId := taskInfo.TaskId, State := .TASK_ERROR, Data := some message }],
          r.calls, none⟩

/-- The test the loop of `findFile` applies to a location, as one Boolean. -/
def accepts (typeOfFile : String) (loc : Location) : Bool :=
  decide (typeOfFile = "" ∨ loc.Type_ = typeOfFile) && HasPrefix loc.Url "file://"

/-! ## The missing-label condition in the words of the specification -/

/-- The label `key` is absent or has an empty value, first matching key wins: no label of the
list carries the key, or the first label that carries it has the empty value. -/
def labelMissing (key : String) (labels : List Label) : Prop :=
  (∀ l ∈ labels, l.Key ≠ key) ∨
  ∃ before l after, labels = before ++ l :: after ∧
    (∀ x ∈ before, x.Key ≠ key) ∧ l.Key = key ∧ l.Value = ""

/-! ## The priority scan in the words of the specification -/

/-- The strict priority scan as the specification words it: the first local-file candidate of
type `ingest`, else the first of type `archive`, else the first of type `cache`, else the
first local-file candidate of any type. -/
def specPriorityScan (locs : List Location) : Option Location :=
  match locs.find? (fun l => decide (l.Type_ = "ingest") && HasPrefix l.Url "file://") with
  | some l => some l
  | none =>
  match locs.find? (fun l => decide (l.Type_ = "archive") && HasPrefix l.Url "file://") with
  | some l => some l
  | none =>
  match locs.find? (fun l => decide (l.Type_ = "cache") && HasPrefix l.Url "file://") with
  | some l => some l
  | none => locs.find? (fun l => HasPrefix l.Url "file://")

/-! ## Concrete inputs used to evaluate the code -/

/-- The text `{"docker":"alpine","mem":128,"volumes":[],"env":[]}`. -/
def alpineJSON : String :=
  "\x7b\"docker\":\"alpine\",\"mem\":128,\"volumes\":[],\"env\":[]\x7d"

/-- The value `json.Unmarshal` decodes `alpineJSON` into. -/
def alpine : Processor := { Docker := "alpine", Mem := 128, Volumes := [], Env := [] }

/-- The text `{"docker":"busybox","mem":256,"volumes":[{"host-path":"/srv/out",
"container-path":"/out","mode":"RW"},{"host-path":"/srv/ref","container-path":"/ref",
"mode":"RO"}],"env":["A=2"]}`. -/
def busyboxJSON : String :=
  "\x7b\"docker\":\"busybox\",\"mem\":256,\"volumes\":[" ++
  "\x7b\"host-path\":\"/srv/out\",\"container-path\":\"/out\",\"mode\":\"RW\"\x7d," ++
  "\x7b\"host-path\":\"/srv/ref\",\"container-path\":\"/ref\",\"mode\":\"RO\"\x7d]," ++
  "\"env\":[\"A=2\"]\x7d"

/-- The value `json.Unmarshal` decodes `busyboxJSON` into. -/
def busybox : Processor :=
  { Docker := "busybox", Mem := 256,
    Volumes := [⟨"/srv/out", "/out", "RW"⟩, ⟨"/srv/ref", "/ref", "RO"⟩], Env := ["A=2"] }

/-- The text `{"locations":[{"url":"file:///tmp/in.txt","type":"ingest"}]}`. -/
def ingestJSON : String :=
  "\x7b\"locations\":[\x7b\"url\":\"file:///tmp/in.txt\",\"type\":\"ingest\"\x7d]\x7d"

/-- The value `json.Unmarshal` decodes `ingestJSON` into. -/
def ingestMessage : Message :=
  { Locations := [{ Url := "file:///tmp/in.txt", Type_ := "ingest" }] }

/-- The text `{"locations":[{"url":"s3://bucket/in.txt","type":"ingest"}]}`. -/
def remoteJSON : String :=
  "\x7b\"locations\":[\x7b\"url\":\"s3://bucket/in.txt\",\"type\":\"ingest\"\x7d]\x7d"

/-- The value `json.Unmarshal` decodes `remoteJSON` into. -/
def remoteMessage : Message :=
  { Locations := [{ Url := "s3://bucket/in.txt", Type_ := "ingest" }] }

/-- The text `{"locations":[{"url":"file://","type":"ingest"}]}`. -/
def bareJSON : String :=
  "\x7b\"locations\":[\x7b\"url\":\"file://\",\"type\":\"ingest\"\x7d]\x7d"

/-- The value `json.Unmarshal` decodes `bareJSON` into. -/
def bareMessage : Message :=
  { Locations := [{ Url := "file://", Type_ := "ingest" }] }

/-- The error of `json.Unmarshal` on a text that ends inside a value, such as `{`. -/
def jsonEOF : GoError := ⟨"*json.SyntaxError", "unexpected end of JSON input"⟩

/-- The answers of `json.Unmarshal` into a `Processor` on the texts used below:
`alpineJSON`, `busyboxJSON`, and the truncated text `{`. Every other text gets the answer
given to `{`; the theorems below evaluate this table on the three listed texts only. -/
def sampleUnmarshalProcessor (text : String) : Except GoError Processor :=
  if text = alpineJSON then .ok alpine
  else if text = busyboxJSON then .ok busybox
  else .error jsonEOF

/-- The answers of `json.Unmarshal` into a `Message` on the texts used below:
`ingestJSON`, `remoteJSON`, `bareJSON`, and the truncated text `{`. Every other text gets
the answer given to `{`; the theorems below evaluate this table on the listed texts only. -/
def sampleUnmarshalMessage (text : String) : Except GoError Message :=
  if text = ingestJSON then .ok ingestMessage
  else if text = remoteJSON then .ok remoteMessage
  else if text = bareJSON then .ok bareMessage
  else .error jsonEOF

/-- A world in which the image is present: the container `c0ffee` is created at the first
attempt, starts, writes `hello` and a newline, and exits with `exitCode`. -/
def runningWorld (exitCode : Int) : World where
  unmarshalProcessor := sampleUnmarshalProcessor
  unmarshalMessage := sampleUnmarshalMessage
  CreateContainer := fun _ _ => .ok ⟨"c0ffee"⟩
  PullImage := fun _ => none
  StartContainer := fun _ => none
  AttachToContainer := fun _ => ("hello\n", none)
  WaitContainer := fun _ => .ok exitCode

/-- A world in which the Docker daemon refuses every create request with `err`, every pull
with `pullErr`, and every start request with `startErr`. -/
def refusingWorld (err : GoError) (pullErr startErr : Option GoError) : World where
  unmarshalProcessor := sampleUnmarshalProcessor
  unmarshalMessage := sampleUnmarshalMessage
  CreateContainer := fun _ _ => .error err
  PullImage := fun _ => pullErr
  StartContainer := fun _ => startErr
  AttachToContainer := fun _ => ("", none)
  WaitContainer := fun _ => .ok 0

/-- A message whose ingest candidate comes last, after a cache, an archive, an untyped and a
remote ingest candidate. -/
def shuffledMessage : Message :=
  { Locations := [
      { Url := "file:///mnt/cache/a", Type_ := "cache" },
      { Url := "file:///mnt/archive/a", Type_ := "archive" },
      { Url := "file:///mnt/any/a" },
      { Url := "s3://bucket/a", Type_ := "ingest" },
      { Url := "file:///mnt/ingest/a", Type_ := "ingest" },
      { Url := "file:///mnt/ingest/b", Type_ := "ingest" }] }

/-- A task carrying the label `A=1` before the labels `processor` and `message`. -/
def labelledTask : TaskInfo :=
  { Name := "catalog", TaskId := "task-2",
    Labels := [⟨"A", "1"⟩, ⟨"processor", busyboxJSON⟩, ⟨"message", ingestJSON⟩] }

/-- A task whose only label is `processor`, holding the truncated text `{`. -/
def truncatedTask : TaskInfo :=
  { Name := "catalog", TaskId := "task-3", Labels := [⟨"processor", "\x7b"⟩] }

/-- A task with two `processor` labels, the first one empty, after an unrelated label. -/
def duplicateProcessorTask : TaskInfo :=
  { Name := "catalog", TaskId := "task-4",
    Labels := [⟨"A", "1"⟩, ⟨"processor", ""⟩, ⟨"processor", alpineJSON⟩,
      ⟨"message", ingestJSON⟩] }

/-- A task with two `message` labels, the first one empty, and a `processor` label that
decodes. -/
def duplicateMessageTask : TaskInfo :=
  { Name := "catalog", TaskId := "task-5",
    Labels := [⟨"message", ""⟩, ⟨"processor", alpineJSON⟩, ⟨"message", ingestJSON⟩] }

/-- A task with two `processor` labels, the first one decoding, the second one empty, and no
`message` label. -/
def shadowedProcessorTask : TaskInfo :=
  { Name := "catalog", TaskId := "task-6",
    Labels := [⟨"processor", alpineJSON⟩, ⟨"processor", ""⟩] }

/-- A task carrying the two labels `processor` and `message`. -/
def taskOf (processor message : String) : TaskInfo :=
  { Name := "catalog", TaskId := "task-1",
    Labels := [⟨"processor", processor⟩, ⟨"message", message⟩] }

/-! ## Lemmas on the loops -/

theorem appendLabelEnv_eq (env : List String) (labels : List Label) :
    appendLabelEnv env labels = env ++ labels.map (fun l => l.Key ++ "=" ++ l.Value) := by
  unfold appendLabelEnv
  induction labels generalizing env with
  | nil => simp
  | cons l rest ih => simp [List.foldl_cons, ih]

theorem appendProcessorEnv_eq (env requests : List String) :
    appendProcessorEnv env requests = env ++ requests := by
  unfold appendProcessorEnv
  induction requests generalizing env with
  | nil => simp
  | cons r rest ih => simp [List.foldl_cons, ih]

theorem appendVolumes_eq (mounts : List Mount) (binds : List String) (vols : List Volume) :
    appendVolumes mounts binds vols =
      (mounts ++ vols.map (fun v =>
          ({ Name := v.ContainerPath, Source := v.HostPath, RW := decide (v.Mode = "RW") } : Mount)),
       binds ++ vols.map (fun v => v.HostPath ++ ":" ++ v.ContainerPath)) := by
  induction vols generalizing mounts binds with
  | nil => simp [appendVolumes]
  | cons v rest ih => simp [appendVolumes, ih]

theorem findFileIn_eq_find (typeOfFile : String) (locs : List Location) :
    findFileIn typeOfFile locs = locs.find? (accepts typeOfFile) := by
  induction locs with
  | nil => rfl
  | cons loc rest ih =>
    unfold findFileIn
    by_cases h1 : typeOfFile = "" ∨ loc.Type_ = typeOfFile
    · by_cases h2 : HasPrefix loc.Url "file://" = true
      · simp [List.find?_cons, accepts, h1, h2]
      · simp [List.find?_cons, accepts, h1, h2, ih]
    · simp [List.find?_cons, accepts, h1, ih]

theorem findFileIn_some_split {typeOfFile : String} {locs : List Location} {loc : Location}
    (h : findFileIn typeOfFile locs = some loc) :
    accepts typeOfFile loc = true ∧
      ∃ before after, locs = before ++ loc :: after ∧
        ∀ l ∈ before, accepts typeOfFile l = false := by
  rw [findFileIn_eq_find] at h
  refine ⟨List.find?_some h, ?_⟩
  induction locs with
  | nil => simp at h
  | cons x rest ih =>
    rw [List.find?_cons] at h
    cases hx : accepts typeOfFile x with
    | true =>
      rw [hx] at h
      simp only [Option.some.injEq] at h
      exact ⟨[], rest, by simp [h], by simp⟩
    | false =>
      rw [hx] at h
      obtain ⟨before, after, hsplit, hb⟩ := ih h
      refine ⟨x :: before, after, by simp [hsplit], ?_⟩
      intro l hl
      rcases List.mem_cons.mp hl with rfl | hl
      · exact hx
      · exact hb l hl

theorem findFileIn_none_iff (typeOfFile : String) (locs : List Location) :
    findFileIn typeOfFile locs = none ↔ ∀ l ∈ locs, accepts typeOfFile l = false := by
  rw [findFileIn_eq_find, List.find?_eq_none]
  simp

theorem sliceFrom_of_HasPrefix {url : String} (h : HasPrefix url "file://" = true) :
    7 ≤ url.length ∧ sliceFrom url 7 = .ok ⟨url.data.drop 7⟩ := by
  have h7 : 7 ≤ url.length := by
    unfold HasPrefix at h
    simp only [Bool.and_eq_true, decide_eq_true_eq] at h
    exact h.1
  exact ⟨h7, by simp [sliceFrom, h7]⟩

/-! ## Lemmas on the Docker client calls -/

theorem createAndPull_calls (w : World) (p : Processor) (opts : CreateContainerOptions) :
    (∃ rest, (createAndPull w p opts).1 = .create opts :: rest) ∧
      ∀ o, Call.create o ∈ (createAndPull w p opts).1 → o = opts := by
  unfold createAndPull
  split
  · split
    · split
      · simp
      · split <;> simp
    · simp
  · simp

theorem runContainer_calls (w : World) (p : Processor) (opts : CreateContainerOptions) :
    (∃ rest, (runContainer w p opts).calls = .create opts :: rest) ∧
      ∀ o, Call.create o ∈ (runContainer w p opts).calls → o = opts := by
  obtain ⟨⟨rest, hrest⟩, hall⟩ := createAndPull_calls w p opts
  unfold runContainer
  simp only
  split
  · exact ⟨⟨rest, hrest⟩, hall⟩
  · split
    · refine ⟨⟨rest ++ _, by rw [hrest]; rfl⟩, ?_⟩
      intro o ho
      simp only [List.mem_append, List.mem_singleton, reduceCtorEq, or_false] at ho
      exact hall o ho
    · split
      · refine ⟨⟨rest ++ _, by rw [hrest]; rfl⟩, ?_⟩
        intro o ho
        simp only [List.mem_append, List.mem_cons, reduceCtorEq, List.mem_nil_iff, or_false,
          false_or, or_self] at ho
        exact hall o ho
      · refine ⟨⟨rest ++ _, by rw [hrest]; rfl⟩, ?_⟩
        intro o ho
        simp only [List.mem_append, List.mem_cons, reduceCtorEq, List.mem_nil_iff, or_false,
          false_or, or_self] at ho
        exact hall o ho

theorem runContainer_code_ne (w : World) (p : Processor) (opts : CreateContainerOptions)
    (s : String) (e : GoError) : (runContainer w p opts).out ≠ .ok (s, -5, some e) := by
  unfold runContainer
  simp only
  split
  · simp
  · split
    · simp
    · split <;> simp

theorem RunDocker_decoded {w : World} {t : TaskInfo} {p : Processor} {m : Message}
    {path : String}
    (hp : FindLabelValue "processor" t.Labels ≠ "")
    (hpd : w.unmarshalProcessor (FindLabelValue "processor" t.Labels) = .ok p)
    (hm : FindLabelValue "message" t.Labels ≠ "")
    (hmd : w.unmarshalMessage (FindLabelValue "message" t.Labels) = .ok m)
    (hpath : findInFile m = .ok path) :
    RunDocker w t =
      if path = "" then ⟨[], "", .ok ("", -5, some (errorsNew "No File to Process!"))⟩
      else runContainer w p (launchOpts t p path) := by
  unfold RunDocker
  simp only [hp, hpd, hm, hmd, hpath, if_false]

theorem RunDocker_create_inv {w : World} {t : TaskInfo} {opts : CreateContainerOptions}
    (h : Call.create opts ∈ (RunDocker w t).calls) :
    ∃ p m path,
      FindLabelValue "processor" t.Labels ≠ "" ∧
      w.unmarshalProcessor (FindLabelValue "processor" t.Labels) = .ok p ∧
      FindLabelValue "message" t.Labels ≠ "" ∧
      w.unmarshalMessage (FindLabelValue "message" t.Labels) = .ok m ∧
      findInFile m = .ok path ∧ path ≠ "" ∧ opts = launchOpts t p path := by
  unfold RunDocker at h
  simp only at h
  split at h
  · simp at h
  · rename_i hp
    split at h
    · simp at h
    · rename_i p hpd
      split at h
      · simp at h
      · rename_i hm
        split at h
        · simp at h
        · rename_i m hmd
          split at h
          · simp at h
          · rename_i path hpath
            split at h
            · simp at h
            · rename_i hne
              exact ⟨p, m, path, hp, hpd, hm, hmd, hpath, hne,
                (runContainer_calls w p _).2 opts h⟩

/-! ## Lemmas on the artifact lookup -/

theorem accepts_typed {typeOfFile : String} (ht : typeOfFile ≠ "") (l : Location) :
    accepts typeOfFile l = (decide (l.Type_ = typeOfFile) && HasPrefix l.Url "file://") := by
  simp [accepts, ht]

theorem accepts_any (l : Location) : accepts "" l = HasPrefix l.Url "file://" := by
  simp [accepts]

theorem findInFile_eq_spec (m : Message) :
    findInFile m =
      match specPriorityScan m.Locations with
      | none => .ok ""
      | some l => sliceFrom l.Url 7 := by
  have e1 : accepts "ingest" =
      fun l => decide (l.Type_ = "ingest") && HasPrefix l.Url "file://" :=
    funext (accepts_typed (by decide))
  have e2 : accepts "archive" =
      fun l => decide (l.Type_ = "archive") && HasPrefix l.Url "file://" :=
    funext (accepts_typed (by decide))
  have e3 : accepts "cache" =
      fun l => decide (l.Type_ = "cache") && HasPrefix l.Url "file://" :=
    funext (accepts_typed (by decide))
  have e4 : accepts "" = fun l => HasPrefix l.Url "file://" := funext accepts_any
  unfold findInFile specPriorityScan findFile
  simp only [findFileIn_eq_find, e1, e2, e3, e4]
  cases List.find? (fun l => decide (l.Type_ = "ingest") && HasPrefix l.Url "file://")
      m.Locations with
  | some l => rfl
  | none =>
    cases List.find? (fun l => decide (l.Type_ = "archive") && HasPrefix l.Url "file://")
        m.Locations with
    | some l => rfl
    | none =>
      cases List.find? (fun l => decide (l.Type_ = "cache") && HasPrefix l.Url "file://")
          m.Locations with
      | some l => rfl
      | none => rfl

theorem specPriorityScan_some {locs : List Location} {loc : Location}
    (h : specPriorityScan locs = some loc) :
    loc ∈ locs ∧ HasPrefix loc.Url "file://" = true := by
  unfold specPriorityScan at h
  split at h
  · rename_i l hl
    cases h
    have := List.find?_some hl
    simp only [Bool.and_eq_true] at this
    exact ⟨List.mem_of_find?_eq_some hl, this.2⟩
  · split at h
    · rename_i l hl
      cases h
      have := List.find?_some hl
      simp only [Bool.and_eq_true] at this
      exact ⟨List.mem_of_find?_eq_some hl, this.2⟩
    · split at h
      · rename_i l hl
        cases h
        have := List.find?_some hl
        simp only [Bool.and_eq_true] at this
        exact ⟨List.mem_of_find?_eq_some hl, this.2⟩
      · have hpre : (fun l : Location => HasPrefix l.Url "file://") loc = true :=
          List.find?_some (p := fun l : Location => HasPrefix l.Url "file://") h
        exact ⟨List.mem_of_find?_eq_some h, hpre⟩

theorem specPriorityScan_ne_none {locs : List Location}
    (h : ∃ l ∈ locs, HasPrefix l.Url "file://" = true) : specPriorityScan locs ≠ none := by
  obtain ⟨l, hl, hpre⟩ := h
  unfold specPriorityScan
  split
  · simp
  · split
    · simp
    · split
      · simp
      · intro hnone
        rw [List.find?_eq_none] at hnone
        exact hnone l hl hpre

theorem path_eq_empty_iff (url : String) :
    (⟨url.data.drop 7⟩ : String) = "" ↔ url.length ≤ 7 := by
  rw [String.ext_iff]
  show url.data.drop 7 = [] ↔ url.data.length ≤ 7
  exact List.drop_eq_nil_iff

/-! ## Memory limit -/

/-- C1, evaluated on the code: the memory limit `RunDocker` puts in `cfg.Memory` is the `mem`
field multiplied by 1,024,000 (wrapped to 64 bits), not by 1,048,576. With `mem=256` the
limit is 262,144,000 bytes and not 268,435,456; with `mem=128` the plan handed to the Docker
client carries 131,072,000 bytes and not 134,217,728. -/
theorem launchOpts_memory_factor :
    (∀ t p path, (launchOpts t p path).Config.Memory = wrapInt64 (p.Mem * 1024000)) ∧
    (∀ t path, (launchOpts t { Mem := 256 } path).Config.Memory = 262144000) ∧
    (262144000 : Int) ≠ 256 * 1048576 ∧
    (∃ opts rest,
      (RunDocker (runningWorld 0) (taskOf alpineJSON ingestJSON)).calls = .create opts :: rest ∧
      opts.Config.Image = "alpine" ∧ opts.Config.Memory = 131072000 ∧
      opts.Config.Memory ≠ 128 * 1048576) := by
  refine ⟨fun _ _ _ => rfl, fun _ _ => rfl, by decide, ?_⟩
  exact ⟨launchOpts (taskOf alpineJSON ingestJSON) alpine "/tmp/in.txt",
    [.start "c0ffee", .attach "c0ffee", .wait "c0ffee"],
    by decide, by decide, by decide, by decide⟩

/-! ## Artifact lookup -/

/-- C2: when the locations of a message contain a candidate of type `ingest` whose url starts
with `file://`, `findFile` called by `findInFile` selects the first such candidate of the
sequence, whatever precedes it, and `findInFile` returns the url of that candidate without
its first seven characters. -/
theorem findInFile_prefers_ingest (m : Message)
    (h : ∃ l ∈ m.Locations, l.Type_ = "ingest" ∧ HasPrefix l.Url "file://" = true) :
    ∃ before loc after,
      m.Locations = before ++ loc :: after ∧
      loc.Type_ = "ingest" ∧ HasPrefix loc.Url "file://" = true ∧
      (∀ l ∈ before, ¬ (l.Type_ = "ingest" ∧ HasPrefix l.Url "file://" = true)) ∧
      findFile m "ingest" = some loc ∧
      findInFile m = .ok ⟨loc.Url.data.drop 7⟩ := by
  have hne : ("ingest" : String) ≠ "" := by decide
  have hsome : ∃ loc, findFileIn "ingest" m.Locations = some loc := by
    cases hf : findFileIn "ingest" m.Locations with
    | some loc => exact ⟨loc, rfl⟩
    | none =>
      obtain ⟨l, hl, hty, hpre⟩ := h
      have := (findFileIn_none_iff "ingest" m.Locations).mp hf l hl
      rw [accepts_typed hne] at this
      simp [hty, hpre] at this
  obtain ⟨loc, hloc⟩ := hsome
  obtain ⟨hacc, before, after, hsplit, hbefore⟩ := findFileIn_some_split hloc
  rw [accepts_typed hne] at hacc
  simp only [Bool.and_eq_true, decide_eq_true_eq] at hacc
  refine ⟨before, loc, after, hsplit, hacc.1, hacc.2, ?_, hloc, ?_⟩
  · intro l hl hcontra
    have := hbefore l hl
    rw [accepts_typed hne] at this
    simp [hcontra.1, hcontra.2] at this
  · have hfind : findFile m "ingest" = some loc := hloc
    unfold findInFile
    simp only [hfind]
    exact (sliceFrom_of_HasPrefix hacc.2).2

theorem findInFile_prefers_ingest_witness :
    findInFile shuffledMessage = .ok "/mnt/ingest/a" ∧
    ∃ before loc after,
      shuffledMessage.Locations = before ++ loc :: after ∧
      loc.Type_ = "ingest" ∧ HasPrefix loc.Url "file://" = true ∧
      (∀ l ∈ before, ¬ (l.Type_ = "ingest" ∧ HasPrefix l.Url "file://" = true)) ∧
      findFile shuffledMessage "ingest" = some loc ∧
      findInFile shuffledMessage = .ok ⟨loc.Url.data.drop 7⟩ :=
  ⟨by decide,
   findInFile_prefers_ingest shuffledMessage
    ⟨{ Url := "file:///mnt/ingest/b", Type_ := "ingest" }, by decide, by decide, by decide⟩⟩

/-- C8: when no location of a message has a url starting with `file://` (in particular when
there is no location), `findInFile` returns the empty path, and `RunDocker`, once both labels
are decoded, returns the error `No File to Process!` with code -5 without any call to the
Docker client. -/
theorem RunDocker_no_local_file (m : Message)
    (h : ∀ l ∈ m.Locations, HasPrefix l.Url "file://" = false) :
    findInFile m = .ok "" ∧
    ∀ (w : World) (t : TaskInfo) (p : Processor),
      FindLabelValue "processor" t.Labels ≠ "" →
      w.unmarshalProcessor (FindLabelValue "processor" t.Labels) = .ok p →
      FindLabelValue "message" t.Labels ≠ "" →
      w.unmarshalMessage (FindLabelValue "message" t.Labels) = .ok m →
      RunDocker w t = ⟨[], "", .ok ("", -5, some (errorsNew "No File to Process!"))⟩ := by
  have hnone : ∀ ty, findFile m ty = none := by
    intro ty
    unfold findFile
    rw [findFileIn_none_iff]
    intro l hl
    simp [accepts, h l hl]
  have hfind : findInFile m = .ok "" := by
    unfold findInFile
    simp only [hnone]
  refine ⟨hfind, ?_⟩
  intro w t p hp hpd hm hmd
  rw [RunDocker_decoded hp hpd hm hmd hfind]
  simp

theorem RunDocker_no_local_file_witness :
    (∀ l ∈ remoteMessage.Locations, HasPrefix l.Url "file://" = false) ∧
    findInFile remoteMessage = .ok "" ∧
    findInFile { Locations := [] } = .ok "" ∧
    RunDocker (runningWorld 0) (taskOf alpineJSON remoteJSON) =
      ⟨[], "", .ok ("", -5, some (errorsNew "No File to Process!"))⟩ :=
  ⟨by decide,
   (RunDocker_no_local_file remoteMessage (by decide)).1,
   (RunDocker_no_local_file { Locations := [] } (by decide)).1,
   (RunDocker_no_local_file remoteMessage (by decide)).2 (runningWorld 0)
      (taskOf alpineJSON remoteJSON) alpine (by decide) (by decide) (by decide) (by decide)⟩

/-! ## Launch plan -/

theorem launchOpts_env (t : TaskInfo) (p : Processor) (path : String) :
    (launchOpts t p path).Config.Env =
      t.Labels.map (fun l => l.Key ++ "=" ++ l.Value) ++ p.Env := by
  simp [launchOpts, appendLabelEnv_eq, appendProcessorEnv_eq]

theorem launchOpts_mounts (t : TaskInfo) (p : Processor) (path : String) :
    (launchOpts t p path).Config.Mounts =
      ({ Name := "/data/ingest_file", Source := path, RW := false } : Mount) ::
        p.Volumes.map (fun v =>
          ({ Name := v.ContainerPath, Source := v.HostPath, RW := decide (v.Mode = "RW") } :
            Mount)) ∧
    (launchOpts t p path).HostConfig.Binds =
      (path ++ ":/data/ingest_file") ::
        p.Volumes.map (fun v => v.HostPath ++ ":" ++ v.ContainerPath) := by
  simp [launchOpts, appendVolumes_eq]

/-- C7: the environment list of the launch plan is the list of `KEY=VALUE` strings of the
task labels in label order followed by the processor env entries verbatim in their order, so
its length is the number of labels plus the number of env entries; for the label `A=1` and
the env `["A=2"]` it is `["A=1", "A=2"]`; and every plan `RunDocker` hands to the Docker
client carries this list, built from the decoded processor. -/
theorem launch_plan_env :
    (∀ (t : TaskInfo) (p : Processor) (path : String),
      (launchOpts t p path).Config.Env =
        t.Labels.map (fun l => l.Key ++ "=" ++ l.Value) ++ p.Env ∧
      (launchOpts t p path).Config.Env.length = t.Labels.length + p.Env.length) ∧
    (∀ path : String,
      (launchOpts { Labels := [⟨"A", "1"⟩] } { Env := ["A=2"] } path).Config.Env =
        ["A=1", "A=2"]) ∧
    (∀ (w : World) (t : TaskInfo) (opts : CreateContainerOptions),
      Call.create opts ∈ (RunDocker w t).calls →
      ∃ p, w.unmarshalProcessor (FindLabelValue "processor" t.Labels) = .ok p ∧
        opts.Config.Env = t.Labels.map (fun l => l.Key ++ "=" ++ l.Value) ++ p.Env ∧
        opts.Config.Env.length = t.Labels.length + p.Env.length) := by
  refine ⟨?_, ?_, ?_⟩
  · intro t p path
    rw [launchOpts_env]
    simp
  · intro path
    rfl
  · intro w t opts h
    obtain ⟨p, m, path, -, hpd, -, -, -, -, rfl⟩ := RunDocker_create_inv h
    refine ⟨p, hpd, launchOpts_env t p path, ?_⟩
    rw [launchOpts_env]
    simp

theorem launch_plan_env_witness :
    Call.create (launchOpts labelledTask busybox "/tmp/in.txt") ∈
      (RunDocker (runningWorld 0) labelledTask).calls ∧
    (launchOpts labelledTask busybox "/tmp/in.txt").Config.Env =
      ["A=1", "processor=" ++ busyboxJSON, "message=" ++ ingestJSON, "A=2"] ∧
    ∃ p, (runningWorld 0).unmarshalProcessor
          (FindLabelValue "processor" labelledTask.Labels) = .ok p ∧
      (launchOpts labelledTask busybox "/tmp/in.txt").Config.Env =
        labelledTask.Labels.map (fun l => l.Key ++ "=" ++ l.Value) ++ p.Env ∧
      (launchOpts labelledTask busybox "/tmp/in.txt").Config.Env.length =
        labelledTask.Labels.length + p.Env.length :=
  ⟨by decide, by decide,
   launch_plan_env.2.2 (runningWorld 0) labelledTask
    (launchOpts labelledTask busybox "/tmp/in.txt") (by decide)⟩

/-- C9: for a task whose two labels decode and whose artifact path is resolved, the first
call to the Docker client is the creation of a container with a plan whose mounts are: the
artifact path, read-only, at `/data/ingest_file`, then one mount per processor volume in
declaration order, from its host path to its container path, writable exactly when its mode
is `RW`; the plan has `1 +` the number of volumes mounts, and every creation request of the
run carries that same plan. -/
theorem RunDocker_mounts (w : World) (t : TaskInfo) (p : Processor) (m : Message)
    (path : String)
    (hp : FindLabelValue "processor" t.Labels ≠ "")
    (hpd : w.unmarshalProcessor (FindLabelValue "processor" t.Labels) = .ok p)
    (hm : FindLabelValue "message" t.Labels ≠ "")
    (hmd : w.unmarshalMessage (FindLabelValue "message" t.Labels) = .ok m)
    (hpath : findInFile m = .ok path) (hne : path ≠ "") :
    ∃ opts rest,
      (RunDocker w t).calls = .create opts :: rest ∧
      (∀ o, Call.create o ∈ (RunDocker w t).calls → o = opts) ∧
      opts.Config.Mounts =
        ({ Name := "/data/ingest_file", Source := path, RW := false } : Mount) ::
          p.Volumes.map (fun v =>
            ({ Name := v.ContainerPath, Source := v.HostPath,
               RW := decide (v.Mode = "RW") } : Mount)) ∧
      opts.Config.Mounts.length = 1 + p.Volumes.length ∧
      opts.HostConfig.Binds =
        (path ++ ":/data/ingest_file") ::
          p.Volumes.map (fun v => v.HostPath ++ ":" ++ v.ContainerPath) := by
  have hrun : RunDocker w t = runContainer w p (launchOpts t p path) := by
    rw [RunDocker_decoded hp hpd hm hmd hpath, if_neg hne]
  obtain ⟨⟨rest, hrest⟩, hall⟩ := runContainer_calls w p (launchOpts t p path)
  refine ⟨launchOpts t p path, rest, by rw [hrun, hrest], ?_, (launchOpts_mounts t p path).1,
    ?_, (launchOpts_mounts t p path).2⟩
  · intro o ho
    rw [hrun] at ho
    exact hall o ho
  · rw [(launchOpts_mounts t p path).1]
    simp [Nat.add_comm]

theorem RunDocker_mounts_witness :
    ∃ opts rest,
      (RunDocker (runningWorld 0) (taskOf busyboxJSON ingestJSON)).calls =
        .create opts :: rest ∧
      (∀ o, Call.create o ∈ (RunDocker (runningWorld 0) (taskOf busyboxJSON ingestJSON)).calls →
        o = opts) ∧
      opts.Config.Mounts =
        ({ Name := "/data/ingest_file", Source := "/tmp/in.txt", RW := false } : Mount) ::
          busybox.Volumes.map (fun v =>
            ({ Name := v.ContainerPath, Source := v.HostPath,
               RW := decide (v.Mode = "RW") } : Mount)) ∧
      opts.Config.Mounts.length = 1 + busybox.Volumes.length ∧
      opts.HostConfig.Binds =
        ("/tmp/in.txt" ++ ":/data/ingest_file") ::
          busybox.Volumes.map (fun v => v.HostPath ++ ":" ++ v.ContainerPath) :=
  RunDocker_mounts (runningWorld 0) (taskOf busyboxJSON ingestJSON) busybox ingestMessage
    "/tmp/in.txt" (by decide) (by decide) (by decide) (by decide) (by decide) (by decide)

/-! ## Missing labels -/

theorem FindLabelValue_absent {key : String} {labels : List Label}
    (h : ∀ l ∈ labels, l.Key ≠ key) : FindLabelValue key labels = "" := by
  induction labels with
  | nil => rfl
  | cons x rest ih =>
    unfold FindLabelValue
    have hx : key ≠ x.Key := fun e => h x (List.mem_cons_self x rest) e.symm
    rw [if_neg hx]
    exact ih (fun l hl => h l (List.mem_cons_of_mem x hl))

theorem FindLabelValue_first {key : String} {before after : List Label} {l : Label}
    (hb : ∀ x ∈ before, x.Key ≠ key) (hl : l.Key = key) :
    FindLabelValue key (before ++ l :: after) = l.Value := by
  induction before with
  | nil =>
    show FindLabelValue key (l :: after) = l.Value
    unfold FindLabelValue
    rw [if_pos hl.symm]
  | cons x rest ih =>
    show FindLabelValue key (x :: (rest ++ l :: after)) = l.Value
    unfold FindLabelValue
    have hx : key ≠ x.Key := fun e => hb x (List.mem_cons_self x rest) e.symm
    rw [if_neg hx]
    exact ih (fun y hy => hb y (List.mem_cons_of_mem x hy))

theorem FindLabelValue_split (key : String) (labels : List Label) :
    (∀ l ∈ labels, l.Key ≠ key) ∨
    ∃ before l after, labels = before ++ l :: after ∧
      (∀ x ∈ before, x.Key ≠ key) ∧ l.Key = key := by
  induction labels with
  | nil => exact Or.inl (by simp)
  | cons x rest ih =>
    by_cases hx : x.Key = key
    · exact Or.inr ⟨[], x, rest, rfl, by simp, hx⟩
    · rcases ih with hall | ⟨before, l, after, hsplit, hb, hl⟩
      · refine Or.inl ?_
        intro y hy
        rcases List.mem_cons.mp hy with rfl | hy
        · exact hx
        · exact hall y hy
      · refine Or.inr ⟨x :: before, l, after, by rw [hsplit]; rfl, ?_, hl⟩
        intro y hy
        rcases List.mem_cons.mp hy with rfl | hy
        · exact hx
        · exact hb y hy

theorem FindLabelValue_eq_empty_iff (key : String) (labels : List Label) :
    FindLabelValue key labels = "" ↔ labelMissing key labels := by
  constructor
  · intro h
    rcases FindLabelValue_split key labels with hall | ⟨before, l, after, hsplit, hb, hl⟩
    · exact Or.inl hall
    · refine Or.inr ⟨before, l, after, hsplit, hb, hl, ?_⟩
      rw [hsplit, FindLabelValue_first hb hl] at h
      exact h
  · rintro (hall | ⟨before, l, after, hsplit, hb, hl, hv⟩)
    · exact FindLabelValue_absent hall
    · rw [hsplit, FindLabelValue_first hb hl, hv]

theorem RunDocker_of_empty_lookup (w : World) (t : TaskInfo)
    (h : FindLabelValue "processor" t.Labels = "" ∨ FindLabelValue "message" t.Labels = "") :
    (RunDocker w t).calls = [] ∧
    (∃ c e, (RunDocker w t).out = .ok ("", c, some e)) ∧
    (FindLabelValue "processor" t.Labels = "" →
      RunDocker w t = ⟨[], "", .ok ("", -1, some (errorsNew "Missing Processor"))⟩) ∧
    (∀ err, FindLabelValue "processor" t.Labels ≠ "" →
      w.unmarshalProcessor (FindLabelValue "processor" t.Labels) = .error err →
      RunDocker w t = ⟨[], "", .ok ("", -2, some err)⟩) ∧
    (∀ p, FindLabelValue "processor" t.Labels ≠ "" →
      w.unmarshalProcessor (FindLabelValue "processor" t.Labels) = .ok p →
      RunDocker w t = ⟨[], "", .ok ("", -3, some (errorsNew "Missing Message"))⟩) := by
  have h1 : FindLabelValue "processor" t.Labels = "" →
      RunDocker w t = ⟨[], "", .ok ("", -1, some (errorsNew "Missing Processor"))⟩ := by
    intro hp
    unfold RunDocker
    simp only [hp, if_true]
  have h2 : ∀ err, FindLabelValue "processor" t.Labels ≠ "" →
      w.unmarshalProcessor (FindLabelValue "processor" t.Labels) = .error err →
      RunDocker w t = ⟨[], "", .ok ("", -2, some err)⟩ := by
    intro err hp hpd
    unfold RunDocker
    simp only [hp, hpd, if_false]
  have h3 : ∀ p, FindLabelValue "processor" t.Labels ≠ "" →
      w.unmarshalProcessor (FindLabelValue "processor" t.Labels) = .ok p →
      RunDocker w t = ⟨[], "", .ok ("", -3, some (errorsNew "Missing Message"))⟩ := by
    intro p hp hpd
    have hm : FindLabelValue "message" t.Labels = "" := by
      rcases h with h | h
      · exact absurd h hp
      · exact h
    unfold RunDocker
    simp only [hp, hpd, hm, if_false, if_true]
  have hcases : RunDocker w t = ⟨[], "", .ok ("", -1, some (errorsNew "Missing Processor"))⟩ ∨
      (∃ err, RunDocker w t = ⟨[], "", .ok ("", -2, some err)⟩) ∨
      RunDocker w t = ⟨[], "", .ok ("", -3, some (errorsNew "Missing Message"))⟩ := by
    by_cases hp : FindLabelValue "processor" t.Labels = ""
    · exact Or.inl (h1 hp)
    · cases hpd : w.unmarshalProcessor (FindLabelValue "processor" t.Labels) with
      | error err => exact Or.inr (Or.inl ⟨err, h2 err hp hpd⟩)
      | ok p => exact Or.inr (Or.inr (h3 p hp hpd))
  refine ⟨?_, ?_, h1, h2, h3⟩
  · rcases hcases with hr | ⟨err, hr⟩ | hr <;> rw [hr]
  · rcases hcases with hr | ⟨err, hr⟩ | hr
    · exact ⟨-1, _, by rw [hr]⟩
    · exact ⟨-2, err, by rw [hr]⟩
    · exact ⟨-3, _, by rw [hr]⟩

/-- C3, as stated, fails: the task whose only label is `processor` with the truncated text
`{` has no `message` label, yet `RunDocker` returns the decoding error of the processor
(code -2), which is neither `Missing Processor` nor `Missing Message`. -/
theorem RunDocker_missing_message_counterexample :
    (∀ l ∈ truncatedTask.Labels, l.Key ≠ "message") ∧
    labelMissing "message" truncatedTask.Labels ∧
    RunDocker (runningWorld 0) truncatedTask = ⟨[], "", .ok ("", -2, some jsonEOF)⟩ ∧
    jsonEOF ≠ errorsNew "Missing Processor" ∧ jsonEOF ≠ errorsNew "Missing Message" ∧
    ¬ (∀ (w : World) (t : TaskInfo),
        (labelMissing "processor" t.Labels ∨ labelMissing "message" t.Labels) →
        ∃ s c e, (RunDocker w t).out = .ok (s, c, some e) ∧
          (e = errorsNew "Missing Processor" ∨ e = errorsNew "Missing Message")) := by
  have habsent : ∀ l ∈ truncatedTask.Labels, l.Key ≠ "message" := by decide
  refine ⟨habsent, Or.inl habsent, by decide, by decide, by decide, ?_⟩
  intro hall
  obtain ⟨s, c, e, hout, he⟩ := hall (runningWorld 0) truncatedTask (Or.inr (Or.inl habsent))
  have hrun : (RunDocker (runningWorld 0) truncatedTask).out = .ok ("", -2, some jsonEOF) := by
    decide
  rw [hrun] at hout
  simp only [Except.ok.injEq, Prod.mk.injEq, Option.some.injEq] at hout
  obtain ⟨-, -, rfl⟩ := hout
  rcases he with he | he
  · exact absurd he (by decide)
  · exact absurd he (by decide)

/-- C3, amended: when the `processor` label or the `message` label is absent or empty, that
is, no label carries the key or the first label that carries it has the empty value,
`RunDocker` makes no call to the Docker client and returns an error: `Missing Processor`
(code -1) when the processor label is absent or empty, whatever the other labels contain;
the decoding error of the processor (code -2) when the first `processor` label is not empty
and does not decode; `Missing Message` (code -3) when the first `processor` label is not
empty and decodes. The lookup `FindLabelValue` returns the empty string exactly on the
absent-or-empty label sets. -/
theorem RunDocker_missing_label (w : World) (t : TaskInfo)
    (h : labelMissing "processor" t.Labels ∨ labelMissing "message" t.Labels) :
    (RunDocker w t).calls = [] ∧
    (∃ c e, (RunDocker w t).out = .ok ("", c, some e)) ∧
    (FindLabelValue "processor" t.Labels = "" ↔ labelMissing "processor" t.Labels) ∧
    (FindLabelValue "message" t.Labels = "" ↔ labelMissing "message" t.Labels) ∧
    (labelMissing "processor" t.Labels →
      RunDocker w t = ⟨[], "", .ok ("", -1, some (errorsNew "Missing Processor"))⟩) ∧
    (∀ before l after err, t.Labels = before ++ l :: after →
      (∀ x ∈ before, x.Key ≠ "processor") → l.Key = "processor" → l.Value ≠ "" →
      w.unmarshalProcessor l.Value = .error err →
      RunDocker w t = ⟨[], "", .ok ("", -2, some err)⟩) ∧
    (∀ before l after p, t.Labels = before ++ l :: after →
      (∀ x ∈ before, x.Key ≠ "processor") → l.Key = "processor" → l.Value ≠ "" →
      w.unmarshalProcessor l.Value = .ok p →
      RunDocker w t = ⟨[], "", .ok ("", -3, some (errorsNew "Missing Message"))⟩) := by
  have hlookup : FindLabelValue "processor" t.Labels = "" ∨
      FindLabelValue "message" t.Labels = "" := by
    rcases h with h | h
    · exact Or.inl ((FindLabelValue_eq_empty_iff _ _).mpr h)
    · exact Or.inr ((FindLabelValue_eq_empty_iff _ _).mpr h)
  obtain ⟨hcalls, hout, h1, h2, h3⟩ := RunDocker_of_empty_lookup w t hlookup
  refine ⟨hcalls, hout, FindLabelValue_eq_empty_iff _ _, FindLabelValue_eq_empty_iff _ _,
    ?_, ?_, ?_⟩
  · intro hp
    exact h1 ((FindLabelValue_eq_empty_iff _ _).mpr hp)
  · intro before l after err hsplit hb hl hv hpd
    have hfind : FindLabelValue "processor" t.Labels = l.Value := by
      rw [hsplit, FindLabelValue_first hb hl]
    exact h2 err (by rw [hfind]; exact hv) (by rw [hfind]; exact hpd)
  · intro before l after p hsplit hb hl hv hpd
    have hfind : FindLabelValue "processor" t.Labels = l.Value := by
      rw [hsplit, FindLabelValue_first hb hl]
    exact h3 p (by rw [hfind]; exact hv) (by rw [hfind]; exact hpd)

theorem RunDocker_missing_label_witness :
    labelMissing "processor" duplicateProcessorTask.Labels ∧
    RunDocker (runningWorld 0) duplicateProcessorTask =
      ⟨[], "", .ok ("", -1, some (errorsNew "Missing Processor"))⟩ ∧
    labelMissing "message" duplicateMessageTask.Labels ∧
    RunDocker (runningWorld 0) duplicateMessageTask =
      ⟨[], "", .ok ("", -3, some (errorsNew "Missing Message"))⟩ ∧
    RunDocker (runningWorld 0) shadowedProcessorTask =
      ⟨[], "", .ok ("", -3, some (errorsNew "Missing Message"))⟩ ∧
    RunDocker (runningWorld 0) { Labels := [⟨"message", ingestJSON⟩] } =
      ⟨[], "", .ok ("", -1, some (errorsNew "Missing Processor"))⟩ ∧
    RunDocker (runningWorld 0) truncatedTask = ⟨[], "", .ok ("", -2, some jsonEOF)⟩ :=
  have hdupP : labelMissing "processor" duplicateProcessorTask.Labels :=
    Or.inr ⟨[⟨"A", "1"⟩], ⟨"processor", ""⟩,
      [⟨"processor", alpineJSON⟩, ⟨"message", ingestJSON⟩], rfl, by decide, rfl, rfl⟩
  have hdupM : labelMissing "message" duplicateMessageTask.Labels :=
    Or.inr ⟨[], ⟨"message", ""⟩,
      [⟨"processor", alpineJSON⟩, ⟨"message", ingestJSON⟩], rfl, by decide, rfl, rfl⟩
  ⟨hdupP,
   (RunDocker_missing_label (runningWorld 0) duplicateProcessorTask (Or.inl hdupP)).2.2.2.2.1
      hdupP,
   hdupM,
   (RunDocker_missing_label (runningWorld 0) duplicateMessageTask
      (Or.inr hdupM)).2.2.2.2.2.2
      [⟨"message", ""⟩] ⟨"processor", alpineJSON⟩ [⟨"message", ingestJSON⟩] alpine
      rfl (by decide) rfl (by decide) (by decide),
   (RunDocker_missing_label (runningWorld 0) shadowedProcessorTask
      (Or.inr (Or.inl (by decide)))).2.2.2.2.2.2
      [] ⟨"processor", alpineJSON⟩ [⟨"processor", ""⟩] alpine
      rfl (by decide) rfl (by decide) (by decide),
   (RunDocker_missing_label (runningWorld 0) { Labels := [⟨"message", ingestJSON⟩] }
      (Or.inl (Or.inl (by decide)))).2.2.2.2.1 (Or.inl (by decide)),
   (RunDocker_missing_label (runningWorld 0) truncatedTask
      (Or.inr (Or.inl (by decide)))).2.2.2.2.2.1
      [] ⟨"processor", "\x7b"⟩ [] jsonEOF rfl (by decide) rfl (by decide) (by decide)⟩

/-! ## Status sequence -/

theorem LaunchTask_cases (w : World) (t : TaskInfo) :
    (∀ s c, (RunDocker w t).out = .ok (s, c, none) → c = 0 →
      LaunchTask w t =
        ⟨[⟨t.TaskId, .TASK_RUNNING, none⟩, ⟨t.TaskId, .TASK_STARTING, none⟩,
          ⟨t.TaskId, .TASK_FINISHED, some s⟩], (RunDocker w t).calls, none⟩) ∧
    (∀ s c, (RunDocker w t).out = .ok (s, c, none) → c ≠ 0 →
      LaunchTask w t =
        ⟨[⟨t.TaskId, .TASK_RUNNING, none⟩, ⟨t.TaskId, .TASK_STARTING, none⟩,
          ⟨t.TaskId, .TASK_ERROR, some s⟩], (RunDocker w t).calls, none⟩) ∧
    (∀ s c e, (RunDocker w t).out = .ok (s, c, some e) → e.dynType ≠ goErrorsType →
      LaunchTask w t =
        ⟨[⟨t.TaskId, .TASK_RUNNING, none⟩, ⟨t.TaskId, .TASK_STARTING, none⟩],
          (RunDocker w t).calls, some .typeAssertion⟩) ∧
    (∀ s c e, (RunDocker w t).out = .ok (s, c, some e) → e.dynType = goErrorsType →
      LaunchTask w t =
        ⟨[⟨t.TaskId, .TASK_RUNNING, none⟩, ⟨t.TaskId, .TASK_STARTING, none⟩,
          ⟨t.TaskId, .TASK_FAILED, none⟩], (RunDocker w t).calls, none⟩) ∧
    (∀ pn, (RunDocker w t).out = .error pn →
      LaunchTask w t =
        ⟨[⟨t.TaskId, .TASK_RUNNING, none⟩, ⟨t.TaskId, .TASK_STARTING, none⟩],
          (RunDocker w t).calls, some pn⟩) := by
  refine ⟨?_, ?_, ?_, ?_, ?_⟩
  · intro s c h hc
    simp [LaunchTask, h, hc]
  · intro s c h hc
    simp [LaunchTask, h, hc]
  · intro s c e h he
    simp [LaunchTask, h, he]
  · intro s c e h he
    simp [LaunchTask, h, he]
  · intro pn h
    simp [LaunchTask, h]

/-- C4, evaluated on the code: on the path where `RunDocker` returns an error, `LaunchTask`
sends Running and Starting and then panics in the type assertion `err.(*errors.Error)`
before the Failed status is built, so no terminal status is sent. This holds in every world
for a task without labels (`Missing Processor`) and for a task whose `message` label is
empty (`Missing Message`). The two other paths send Finished and Errored. -/
theorem LaunchTask_error_path_sends_no_terminal :
    (∀ (w : World) (name taskId : String),
      LaunchTask w { Name := name, TaskId := taskId, Labels := [] } =
        ⟨[⟨taskId, .TASK_RUNNING, none⟩, ⟨taskId, .TASK_STARTING, none⟩], [],
          some .typeAssertion⟩) ∧
    LaunchTask (runningWorld 0) (taskOf alpineJSON "") =
      ⟨[⟨"task-1", .TASK_RUNNING, none⟩, ⟨"task-1", .TASK_STARTING, none⟩], [],
        some .typeAssertion⟩ ∧
    (LaunchTask (runningWorld 0) (taskOf alpineJSON ingestJSON)).sent =
      [⟨"task-1", .TASK_RUNNING, none⟩, ⟨"task-1", .TASK_STARTING, none⟩,
        ⟨"task-1", .TASK_FINISHED, some "c0ffee"⟩] ∧
    (LaunchTask (runningWorld 3) (taskOf alpineJSON ingestJSON)).sent =
      [⟨"task-1", .TASK_RUNNING, none⟩, ⟨"task-1", .TASK_STARTING, none⟩,
        ⟨"task-1", .TASK_ERROR, some "c0ffee"⟩] := by
  refine ⟨?_, by decide, by decide, by decide⟩
  intro w name taskId
  rfl

/-! ## Payload -/

theorem runContainer_returns_ID (w : World) (p : Processor) (opts : CreateContainerOptions)
    (s : String) (c : Int) (h : (runContainer w p opts).out = .ok (s, c, none)) :
    Call.start s ∈ (runContainer w p opts).calls ∧
      (runContainer w p opts).buffer = (w.AttachToContainer s).1 := by
  unfold runContainer at h ⊢
  simp only at h ⊢
  split
  · rename_i hc
    simp [hc] at h
  · rename_i container hc
    simp only [hc] at h
    split
    · rename_i err hs
      simp [hs] at h
    · rename_i hs
      simp only [hs] at h
      split
      · rename_i err hw
        simp [hw] at h
      · rename_i code hw
        simp only [hw, Except.ok.injEq, Prod.mk.injEq, and_true] at h
        obtain ⟨rfl, -⟩ := h
        simp

/-- C5, evaluated on the code: the string `RunDocker` returns on the paths where the
container starts and terminates, which `LaunchTask` puts in `TaskStatus.Data`, is the
identifier of the container; the output captured in the buffer `b` is not returned. In a
world where the container `c0ffee` writes `hello`, the payload of Finished (exit code 0) and
of Errored (exit code 3) is `c0ffee`. -/
theorem LaunchTask_payload_is_container_ID :
    (∀ code : Int,
      (RunDocker (runningWorld code) (taskOf alpineJSON ingestJSON)).out =
        .ok ("c0ffee", code, none) ∧
      (RunDocker (runningWorld code) (taskOf alpineJSON ingestJSON)).buffer = "hello\n") ∧
    (LaunchTask (runningWorld 0) (taskOf alpineJSON ingestJSON)).sent =
      [⟨"task-1", .TASK_RUNNING, none⟩, ⟨"task-1", .TASK_STARTING, none⟩,
        ⟨"task-1", .TASK_FINISHED, some "c0ffee"⟩] ∧
    (LaunchTask (runningWorld 3) (taskOf alpineJSON ingestJSON)).sent =
      [⟨"task-1", .TASK_RUNNING, none⟩, ⟨"task-1", .TASK_STARTING, none⟩,
        ⟨"task-1", .TASK_ERROR, some "c0ffee"⟩] ∧
    ("c0ffee" : String) ≠ "hello\n" := by
  refine ⟨?_, by decide, by decide, by decide⟩
  intro code
  exact ⟨rfl, rfl⟩

/-! ## Creation, pull and start failures -/

theorem runContainer_start_failure (w : World) (p : Processor)
    (opts : CreateContainerOptions) (container : Container) (err : GoError)
    (hc : (createAndPull w p opts).2.1 = some container)
    (hs : w.StartContainer container.ID = some err) :
    (runContainer w p opts).out = .ok ("", -7, some err) := by
  unfold runContainer
  simp only [hc, hs]

theorem runContainer_create_failure (w : World) (p : Processor)
    (opts : CreateContainerOptions) (hc : (createAndPull w p opts).2.1 = none) :
    (runContainer w p opts).out = .error .nilDereference := by
  unfold runContainer
  simp only [hc]

/-- C6, evaluated on the code: when the creation of the container fails, `createAndPull`
returns a nil container and an error, `RunDocker` does not read that error and dereferences
the nil container, so it panics instead of returning an error. This is so when the Docker
client answers `container already exists` to the creation request, when it answers
`no such image` and the pull fails, and when it answers `no such image` again after a pull
that succeeded. Only a start failure is returned as an error (code -7). -/
theorem RunDocker_create_failure_panics :
    (∀ pullErr startErr : Option GoError,
      RunDocker (refusingWorld (errorsNew "container already exists") pullErr startErr)
          (taskOf alpineJSON ingestJSON) =
        ⟨[.create (launchOpts (taskOf alpineJSON ingestJSON) alpine "/tmp/in.txt")], "",
          .error .nilDereference⟩) ∧
    (∀ (pullErr : GoError) (startErr : Option GoError),
      RunDocker (refusingWorld (errorsNew "no such image") (some pullErr) startErr)
          (taskOf alpineJSON ingestJSON) =
        ⟨[.create (launchOpts (taskOf alpineJSON ingestJSON) alpine "/tmp/in.txt"),
          .pull "alpine"], "", .error .nilDereference⟩) ∧
    (∀ startErr : Option GoError,
      RunDocker (refusingWorld (errorsNew "no such image") none startErr)
          (taskOf alpineJSON ingestJSON) =
        ⟨[.create (launchOpts (taskOf alpineJSON ingestJSON) alpine "/tmp/in.txt"),
          .pull "alpine",
          .create (launchOpts (taskOf alpineJSON ingestJSON) alpine "/tmp/in.txt")], "",
          .error .nilDereference⟩) ∧
    (LaunchTask (refusingWorld (errorsNew "container already exists") none none)
        (taskOf alpineJSON ingestJSON)).sent =
      [⟨"task-1", .TASK_RUNNING, none⟩, ⟨"task-1", .TASK_STARTING, none⟩] := by
  refine ⟨?_, ?_, ?_, by decide⟩
  · intro pullErr startErr
    rfl
  · intro pullErr startErr
    rfl
  · intro startErr
    rfl

/-! ## Priority scan -/

/-- C10, as stated, fails: the message whose only location is the url `file://` of type
`ingest` contains a location whose url starts with `file://`, yet `findInFile` returns the
empty path and `RunDocker` fails with `No File to Process!`. -/
theorem RunDocker_bare_url_counterexample :
    (∃ l ∈ bareMessage.Locations, HasPrefix l.Url "file://" = true) ∧
    findInFile bareMessage = .ok "" ∧
    RunDocker (runningWorld 0) (taskOf alpineJSON bareJSON) =
      ⟨[], "", .ok ("", -5, some (errorsNew "No File to Process!"))⟩ :=
  ⟨⟨{ Url := "file://", Type_ := "ingest" }, by decide, by decide⟩, by decide, by decide⟩

/-- C10, amended: for a message containing a location whose url starts with `file://`,
`findInFile` returns, without indexing past the end of the url, the url minus its first
seven characters of the candidate chosen by the strict priority scan (first local-file
candidate of type `ingest`, else of type `archive`, else of type `cache`, else of any type).
When that url is longer than `file://`, `RunDocker`, once both labels are decoded, does not
fail with `No File to Process!` and hands the Docker client a plan whose first mount has that
path as source; when that url is exactly `file://`, the path is empty and `RunDocker` fails
with `No File to Process!`. -/
theorem findInFile_priority_scan (m : Message)
    (h : ∃ l ∈ m.Locations, HasPrefix l.Url "file://" = true) :
    ∃ loc,
      specPriorityScan m.Locations = some loc ∧ loc ∈ m.Locations ∧
      HasPrefix loc.Url "file://" = true ∧ 7 ≤ loc.Url.length ∧
      sliceFrom loc.Url 7 = .ok ⟨loc.Url.data.drop 7⟩ ∧
      findInFile m = .ok ⟨loc.Url.data.drop 7⟩ ∧
      ∀ (w : World) (t : TaskInfo) (p : Processor),
        FindLabelValue "processor" t.Labels ≠ "" →
        w.unmarshalProcessor (FindLabelValue "processor" t.Labels) = .ok p →
        FindLabelValue "message" t.Labels ≠ "" →
        w.unmarshalMessage (FindLabelValue "message" t.Labels) = .ok m →
        (7 < loc.Url.length →
          (∀ s e, (RunDocker w t).out ≠ .ok (s, -5, some e)) ∧
          ∃ opts rest, (RunDocker w t).calls = .create opts :: rest ∧
            opts.Config.Mounts.head? =
              some { Name := "/data/ingest_file", Source := ⟨loc.Url.data.drop 7⟩,
                     RW := false }) ∧
        (loc.Url.length = 7 →
          RunDocker w t = ⟨[], "", .ok ("", -5, some (errorsNew "No File to Process!"))⟩) := by
  cases hscan : specPriorityScan m.Locations with
  | none => exact absurd hscan (specPriorityScan_ne_none h)
  | some loc =>
    obtain ⟨hmem, hpre⟩ := specPriorityScan_some hscan
    obtain ⟨h7, hslice⟩ := sliceFrom_of_HasPrefix hpre
    have hfind : findInFile m = .ok ⟨loc.Url.data.drop 7⟩ := by
      rw [findInFile_eq_spec, hscan]
      exact hslice
    refine ⟨loc, rfl, hmem, hpre, h7, hslice, hfind, ?_⟩
    intro w t p hp hpd hm hmd
    have hrun := RunDocker_decoded hp hpd hm hmd hfind
    constructor
    · intro hlong
      have hne : (⟨loc.Url.data.drop 7⟩ : String) ≠ "" := by
        rw [Ne, path_eq_empty_iff]
        omega
      rw [if_neg hne] at hrun
      refine ⟨?_, ?_⟩
      · intro s e
        rw [hrun]
        exact runContainer_code_ne w p _ s e
      · obtain ⟨⟨rest, hrest⟩, -⟩ := runContainer_calls w p (launchOpts t p ⟨loc.Url.data.drop 7⟩)
        refine ⟨_, rest, by rw [hrun, hrest], ?_⟩
        rw [(launchOpts_mounts t p _).1]
        rfl
    · intro hlen
      have he : (⟨loc.Url.data.drop 7⟩ : String) = "" := by
        rw [path_eq_empty_iff]
        omega
      rw [if_pos he] at hrun
      exact hrun

theorem findInFile_priority_scan_witness :
    findInFile shuffledMessage = .ok "/mnt/ingest/a" ∧
    (∃ loc,
      specPriorityScan shuffledMessage.Locations = some loc ∧
      loc ∈ shuffledMessage.Locations ∧
      HasPrefix loc.Url "file://" = true ∧ 7 ≤ loc.Url.length ∧
      findInFile shuffledMessage = .ok ⟨loc.Url.data.drop 7⟩) ∧
    findInFile ingestMessage = .ok "/tmp/in.txt" ∧
    (∀ s e, (RunDocker (runningWorld 0) (taskOf alpineJSON ingestJSON)).out ≠
      .ok (s, -5, some e)) ∧
    (∃ opts rest,
      (RunDocker (runningWorld 0) (taskOf alpineJSON ingestJSON)).calls = .create opts :: rest ∧
      opts.Config.Mounts.head? =
        some { Name := "/data/ingest_file", Source := "/tmp/in.txt", RW := false }) := by
  refine ⟨by decide, ?_, by decide, ?_⟩
  · obtain ⟨loc, hscan, hmem, hpre, h7, -, hfind, -⟩ :=
      findInFile_priority_scan shuffledMessage
        ⟨{ Url := "file:///mnt/cache/a", Type_ := "cache" }, by decide, by decide⟩
    exact ⟨loc, hscan, hmem, hpre, h7, hfind⟩
  · obtain ⟨loc, hscan, -, -, -, -, -, hrun⟩ :=
      findInFile_priority_scan ingestMessage
        ⟨{ Url := "file:///tmp/in.txt", Type_ := "ingest" }, by decide, by decide⟩
    have hval : specPriorityScan ingestMessage.Locations =
        some { Url := "file:///tmp/in.txt", Type_ := "ingest" } := by decide
    rw [hval] at hscan
    obtain rfl := Option.some.inj hscan
    exact (hrun (runningWorld 0) (taskOf alpineJSON ingestJSON) alpine
      (by decide) (by decide) (by decide) (by decide)).1 (by decide)

end Catalogexe
